import Mathlib

/-!
# WebcamInstruments: SimpleThresholdTrigger

A shallow embedding of `src/SimpleThresholdTrigger.cpp` and the properties of its
threshold-crossing logic.

Modelling conventions.

* The C++ `float`/`double` arithmetic is embedded as exact rational arithmetic (`ℚ`):
  no rounding, no infinities.  Division by zero is `0` in `ℚ`; it can only occur in
  `update` when `mThreshold = 1`, which the constructor never produces, and every
  theorem that depends on the sign of `1 - mThreshold` assumes `mThreshold < 1`.
* The MIDI output `mMidiOutput` is embedded as the list of `sendNoteOn` calls a
  member function makes, in call order, returned next to the new object state.
* `ofGetElapsedTimef()` is embedded as an extra argument `now`.
* `cv::Mat`, `cv::Rect`, `cv::mean` and `Mat::operator()(Rect)` are OpenCV; they are
  embedded by their documented behaviour (three-channel image, region extraction that
  fails when the rectangle is not inside the image, per-channel arithmetic mean).
* For `draw`, the shared state is the random-number generator (the value it was last seeded
  with and the number of draws since) and the list of calls the renderer has received; the
  results of `pow` and `ofRandom` are parameters (`DrawEnv`).  The seed of line 112 is
  computed in 32-bit `int` and colour channels are stored as `unsigned char`.
* Where the rounding of single precision decides a property, lines 51 to 71 are embedded a
  second time with every `float` rounded to binary32 (`noteOnVelocityBinary32`).
-/

namespace WebcamInstruments

/-! ## Collaborators -/

/-- One call `sendNoteOn(channel, pitch, velocity)` on the MIDI output. -/
structure MidiMsg where
  channel : Int
  pitch : Int
  velocity : Int
  deriving DecidableEq, Repr

/-- The OpenCV rectangle `cv::Rect` (integer `x`, `y`, `width`, `height`). -/
structure Rect where
  x : Int
  y : Int
  width : Int
  height : Int
  deriving DecidableEq, Repr

/-- The OpenCV matrix `cv::Mat` holding a three-channel image: `px r c ch` is the value of
channel `ch` of the pixel in row `r` and column `c`. -/
structure Mat where
  rows : Nat
  cols : Nat
  px : Nat → Nat → Nat → Nat

/-- The precondition of `Mat::operator()(const Rect&)`: the rectangle lies inside the image.
OpenCV raises an error otherwise. -/
def Mat.contains (img : Mat) (roi : Rect) : Prop :=
  0 ≤ roi.x ∧ 0 ≤ roi.width ∧ roi.x + roi.width ≤ img.cols ∧
  0 ≤ roi.y ∧ 0 ≤ roi.height ∧ roi.y + roi.height ≤ img.rows

instance (img : Mat) (roi : Rect) : Decidable (img.contains roi) := by
  unfold Mat.contains
  infer_instance

/-- The sum of channel `ch` over the pixels of `img` inside `roi`. -/
def regionSum (img : Mat) (roi : Rect) (ch : Nat) : ℚ :=
  ((List.range roi.height.toNat).map fun i =>
    ((List.range roi.width.toNat).map fun j =>
      (img.px (roi.y.toNat + i) (roi.x.toNat + j) ch : ℚ)).sum).sum

/-- Channel `ch` of `cv::mean(differenceImage(roi))`: the arithmetic mean of the channel over
the region (`0` for an empty region). -/
def cvMean (img : Mat) (roi : Rect) (ch : Nat) : ℚ :=
  regionSum img roi ch / ((roi.width.toNat : ℚ) * (roi.height.toNat : ℚ))

/-- The C++ conversion `(int) q` of a floating-point value: truncation toward zero. -/
def truncToInt (q : ℚ) : Int :=
  if 0 ≤ q then ⌊q⌋ else ⌈q⌉

/-! ## The trigger -/

/-- Modelled from the spec: the class declaration (`SimpleThresholdTrigger.h`) is not among the
sources.  The fields are the members the constructor assigns (lines 13 to 20), with the
types of the spec's data model; `mMidiOutput` is embedded as the returned message list. -/
structure SimpleThresholdTrigger where
  mMidiPitch : Int
  mThreshold : ℚ
  mPreviousMovement : ℚ
  mNoteIsPlaying : Bool
  mLocation : Rect
  mTimeNoteStarted : ℚ
  mNoteVelocity : ℚ
  deriving DecidableEq

namespace SimpleThresholdTrigger

/-- The constructor `SimpleThresholdTrigger::SimpleThresholdTrigger` (lines 11 to 21). -/
def construct (pitch : Int) (location : Rect) : SimpleThresholdTrigger where
  mMidiPitch := pitch
  mThreshold := 2 / 10
  mPreviousMovement := 0
  mNoteIsPlaying := false
  mLocation := location
  mTimeNoteStarted := 0
  mNoteVelocity := 0

/-- The member function `flush` (lines 28 to 35): the object state after the call and the
messages sent.  The body assigns no member. -/
def flush (t : SimpleThresholdTrigger) : SimpleThresholdTrigger × List MidiMsg :=
  if t.mNoteIsPlaying then
    (t, [⟨0, t.mMidiPitch, 0⟩])
  else
    (t, [])

/-- The destructor (lines 23 to 26): it calls `flush`; the object is gone afterwards, so only
the messages remain. -/
def destruct (t : SimpleThresholdTrigger) : List MidiMsg :=
  (flush t).2

/-- Lines 46 to 48 of `update`: the average of the three channel means, scaled to `0..1`. -/
def rawMovement (img : Mat) (roi : Rect) : ℚ :=
  let overallMean := (cvMean img roi 0 + cvMean img roi 1 + cvMean img roi 2) / 3
  overallMean / 255

/-- Line 50 of `update`: `movement = 1. - pow((1. - movement), 3)`. -/
def shape (movement : ℚ) : ℚ :=
  1 - (1 - movement) ^ 3

/-- Lines 51 to 85 of `update`, as a function of the value `movement` holds after line 50
(the shaped movement) and of the value `ofGetElapsedTimef()` returns. -/
def updateShaped (t : SimpleThresholdTrigger) (shaped : ℚ) (now : ℚ) :
    SimpleThresholdTrigger × List MidiMsg :=
  let amountAboveThreshold0 := shaped - t.mThreshold
  let amountAboveThresholdPreviously := t.mPreviousMovement - t.mThreshold
  let rangeAvailableAboveThreshold := 1 - t.mThreshold
  let movement := shaped / rangeAvailableAboveThreshold
  let amountAboveThreshold := amountAboveThreshold0 / rangeAvailableAboveThreshold
  if amountAboveThreshold > 0 ∧ amountAboveThresholdPreviously < 0 then
    let velocityRange := 1 - t.mThreshold
    let velocity := amountAboveThreshold / velocityRange
    let velocityInt0 := truncToInt (velocity * 127 + 1 / 2)
    let velocityInt1 := max 0 velocityInt0
    let velocityInt := min 127 velocityInt1
    ({ t with
        mNoteIsPlaying := true
        mTimeNoteStarted := now
        mNoteVelocity := velocity
        mPreviousMovement := movement },
      [⟨1, t.mMidiPitch, velocityInt⟩])
  else if amountAboveThreshold < 0 ∧ t.mNoteIsPlaying = true then
    ({ t with
        mNoteIsPlaying := false
        mPreviousMovement := movement },
      [⟨1, t.mMidiPitch, 0⟩])
  else
    ({ t with mPreviousMovement := movement }, [])

/-- The member function `update` (lines 38 to 86).  `none` stands for the OpenCV error raised
at line 41 when `mLocation` does not lie inside the image. -/
def update (t : SimpleThresholdTrigger) (differenceImage : Mat) (now : ℚ) :
    Option (SimpleThresholdTrigger × List MidiMsg) :=
  if differenceImage.contains t.mLocation then
    some (updateShaped t (shape (rawMovement differenceImage t.mLocation)) now)
  else
    none

end SimpleThresholdTrigger

/-! ## Sequences of calls -/

/-- A call a client makes on a trigger object. -/
inductive Call where
  | update (differenceImage : Mat) (now : ℚ)
  | flush

/-- Performs one call: the new state and the messages the call sent. -/
def Call.perform (t : SimpleThresholdTrigger) :
    Call → Option (SimpleThresholdTrigger × List MidiMsg)
  | Call.update img now => t.update img now
  | Call.flush => some t.flush

/-- Performs the calls in order, starting from `t`: the final state and all messages sent, in
the order they were sent. -/
def runCalls (t : SimpleThresholdTrigger) :
    List Call → Option (SimpleThresholdTrigger × List MidiMsg)
  | [] => some (t, [])
  | c :: cs =>
    match c.perform t with
    | none => none
    | some (t1, sent1) =>
      match runCalls t1 cs with
      | none => none
      | some (t2, sent2) => some (t2, sent1 ++ sent2)

/-- An image in which every channel of every pixel has the value `v`. -/
def uniformImage (rows cols v : Nat) : Mat where
  rows := rows
  cols := cols
  px := fun _ _ _ => v

/-- The rectangle covering exactly the single pixel at the origin. -/
def unitRect : Rect := ⟨0, 0, 1, 1⟩

/-- The trigger on the single pixel at the origin with pitch 60 in the state one `update` with
an all-white image at time `0` leaves a freshly constructed trigger in (see
`update_fresh_white`): a note is playing. -/
def playingTrigger : SimpleThresholdTrigger where
  mMidiPitch := 60
  mThreshold := 2 / 10
  mPreviousMovement := 5 / 4
  mNoteIsPlaying := true
  mLocation := unitRect
  mTimeNoteStarted := 0
  mNoteVelocity := 5 / 4

/-- The velocity the specification gives for a note-on at shaped value `s` with threshold `t`:
the above-threshold amount divided by the available range `1 - t` once, times 127, rounded
and clamped to `0..127`. -/
def specVelocity (s t : ℚ) : Int :=
  min 127 (max 0 (round ((s - t) / (1 - t) * 127)))

/-- An image whose pixel in row 0 and column 0 has the value `inside` in every channel, and
whose other pixels have the value `outside` in every channel. -/
def spotImage (rows cols inside outside : Nat) : Mat where
  rows := rows
  cols := cols
  px := fun r c _ => if r = 0 ∧ c = 0 then inside else outside

/-- Performs `update` calls in order, starting from `t`; each call is given by the raw
movement its image has at line 48 and by the clock value.  The result is the final state and
all messages sent, in the order they were sent. -/
def runUpdates (t : SimpleThresholdTrigger) :
    List (ℚ × ℚ) → SimpleThresholdTrigger × List MidiMsg
  | [] => (t, [])
  | (raw, now) :: rest =>
    ((runUpdates (t.updateShaped (SimpleThresholdTrigger.shape raw) now).1 rest).1,
      (t.updateShaped (SimpleThresholdTrigger.shape raw) now).2 ++
        (runUpdates (t.updateShaped (SimpleThresholdTrigger.shape raw) now).1 rest).2)

/-- The `update` call with shaped value `s` sends a note-on: a message goes out and the call
leaves `mNoteIsPlaying` set (lines 72 and 73). -/
def SendsNoteOn (t : SimpleThresholdTrigger) (s now : ℚ) : Prop :=
  (t.updateShaped s now).2 ≠ [] ∧ (t.updateShaped s now).1.mNoteIsPlaying = true

/-- The `update` call with shaped value `s` sends a note-off: a message goes out and the call
leaves `mNoteIsPlaying` cleared (lines 81 and 82). -/
def SendsNoteOff (t : SimpleThresholdTrigger) (s now : ℚ) : Prop :=
  (t.updateShaped s now).2 ≠ [] ∧ (t.updateShaped s now).1.mNoteIsPlaying = false

/-! ## Rendering -/

/-- The openFrameworks colour `ofColor`: red, green, blue and alpha. -/
structure Color where
  r : Int
  g : Int
  b : Int
  a : Int
  deriving DecidableEq, Repr

/-- A call `draw` makes on the renderer: `ofSetColor` or `ofCircle(center, radius)`. -/
inductive RenderCall where
  | ofSetColor (c : Color)
  | ofCircle (centerX centerY radius : ℚ)
  deriving DecidableEq

/-- The shared state `draw` touches.  The random-number generator is described by the value it
was last seeded with and by how many numbers were drawn from it since; the renderer by the
calls it has received. -/
structure Shared where
  rngSeed : Int
  rngDrawn : Nat
  rendered : List RenderCall
  deriving DecidableEq

/-- The library functions whose results `draw` uses: `pow base exponent`, and `ofRandom`, the
number in `0..3` that `ofRandom(0.f, 3.f)` returns as draw number `k` after the generator was
seeded with `seed`. -/
structure DrawEnv where
  pow : ℚ → ℚ → ℚ
  ofRandom : Int → Nat → ℚ

/-- The openFrameworks function `ofClamp(value, min, max)`. -/
def ofClamp (value lo hi : ℚ) : ℚ :=
  if value < lo then lo else if value > hi then hi else value

/-- The value an `unsigned char` colour channel holds after being assigned `n`: the low eight
bits, a value in `0..255`. -/
def ucharOfInt (n : Int) : Int :=
  n % 256

/-- The construction `ofColor(r, g, b, a)`: every channel is stored as an `unsigned char`. -/
def Color.ofChannels (r g b a : Int) : Color where
  r := ucharOfInt r
  g := ucharOfInt g
  b := ucharOfInt b
  a := ucharOfInt a

/-- The openFrameworks member `ofColor::lerp(target, amount)`: every channel moves toward the
target by `amount` and is stored as an `unsigned char` again. -/
def Color.lerp (c target : Color) (amount : ℚ) : Color where
  r := ucharOfInt (truncToInt ((1 - amount) * c.r + amount * target.r))
  g := ucharOfInt (truncToInt ((1 - amount) * c.g + amount * target.g))
  b := ucharOfInt (truncToInt ((1 - amount) * c.b + amount * target.b))
  a := ucharOfInt (truncToInt ((1 - amount) * c.a + amount * target.a))

/-- The conversion `int(q)` of a `double` to a 32-bit `int`: truncation toward zero when the
result fits, and the value `-2^31` the x86 conversion instruction yields when it does not
(C++ leaves that case undefined). -/
def doubleToInt32 (q : ℚ) : Int :=
  if -2147483648 ≤ truncToInt q ∧ truncToInt q ≤ 2147483647 then truncToInt q else -2147483648

/-- The 32-bit `int` a sum of `int`s yields: the two's-complement value of `n` in
`-2^31 .. 2^31 - 1` (C++ leaves the overflowing case undefined). -/
def wrapInt32 (n : Int) : Int :=
  (n + 2147483648) % 4294967296 - 2147483648

/-- The argument of `ofSeedRandom` at line 112:
`int(1000. * mLocation.x) + int(1000000. * mLocation.y) + 2367`, computed in 32-bit `int`. -/
def drawSeed (location : Rect) : Int :=
  wrapInt32 (wrapInt32 (doubleToInt32 (1000 * (location.x : ℚ))
    + doubleToInt32 (1000000 * (location.y : ℚ))) + 2367)

/-- The ring of lines 114 to 128 of `draw`, drawn while `t0`, the time since the note started,
is below `circleLifetime`. -/
def drawRing (env : DrawEnv) (t : SimpleThresholdTrigger) (circleColor : Color)
    (centerX centerY locationRadius t0 circleLifetime : ℚ) : List RenderCall :=
  if t0 < circleLifetime then
    let t1 := ofClamp (t0 / circleLifetime) 0 1
    let lerped := circleColor.lerp ⟨255, 255, 255, 255⟩ (env.pow (t1 * (7 / 10) + 3 / 10) (6 / 10))
    let radius := t.mThreshold * locationRadius * (env.pow t1 (1 / 4) * 20 + 1)
    let opacity := env.pow (1 - t1) 3 * (4 / 10)
    let faded : Color := { lerped with a := ucharOfInt (truncToInt (opacity * 255)) }
    [RenderCall.ofSetColor faded, RenderCall.ofCircle centerX centerY radius]
  else
    []

/-- The member function `draw` (lines 88 to 130): the object state after the call, the MIDI
messages sent, and the shared state after the call.  The body assigns no member and makes no
call on `mMidiOutput`; it calls `ofSeedRandom` (line 112), `ofRandom` (line 113) and the
renderer. -/
def SimpleThresholdTrigger.draw (env : DrawEnv) (t : SimpleThresholdTrigger) (w : Shared)
    (now : ℚ) : SimpleThresholdTrigger × List MidiMsg × Shared :=
  let centerX : ℚ := t.mLocation.x + t.mLocation.width / 2
  let centerY : ℚ := t.mLocation.y + t.mLocation.height / 2
  let locationRadius : ℚ := ((min t.mLocation.width t.mLocation.height : Int) : ℚ) / 2
  let red := truncToInt (t.mPreviousMovement * 244)
  let green := truncToInt (t.mPreviousMovement * 10 + 30)
  let blue := max 0 (truncToInt ((4 / 10 - 1 / 10 * t.mPreviousMovement) * 43) + 130)
  let circleColor : Color := Color.ofChannels red green blue 255
  let t0 := now - t.mTimeNoteStarted
  let seed : Int := drawSeed t.mLocation
  let circleLifetime := 5 + env.ofRandom seed 0
  (t, [],
    { rngSeed := seed
      rngDrawn := 1
      rendered := w.rendered ++
        [RenderCall.ofSetColor ⟨180, 180, 180, 64⟩,
          RenderCall.ofCircle centerX centerY (t.mThreshold * locationRadius),
          RenderCall.ofSetColor circleColor,
          RenderCall.ofCircle centerX centerY (t.mPreviousMovement * locationRadius)] ++
        drawRing env t circleColor centerX centerY locationRadius t0 circleLifetime })

/-- An environment for evaluating `draw` on examples whose outcome does not depend on the
library functions: `pow` returns its base and `ofRandom` returns `0`. -/
def sampleEnv : DrawEnv where
  pow := fun base _ => base
  ofRandom := fun _ _ => 0

/-! ## The specification's reading of the region mean -/

/-- The arithmetic mean of channel `ch` over the region in the specification's words: the sum
of the channel over the pixels whose row lies in `y .. y + height - 1` and whose column lies
in `x .. x + width - 1`, divided by the number of those pixels. -/
def specRegionMean (img : Mat) (roi : Rect) (ch : Nat) : ℚ :=
  (Finset.sum (Finset.Ico roi.y.toNat (roi.y.toNat + roi.height.toNat)) fun r =>
    Finset.sum (Finset.Ico roi.x.toNat (roi.x.toNat + roi.width.toNat)) fun c =>
      (img.px r c ch : ℚ))
    / ((roi.width.toNat : ℚ) * (roi.height.toNat : ℚ))

/-- The raw motion in the specification's words: the average of the three per-channel means
over the region, divided by 255. -/
def specRawMotion (img : Mat) (roi : Rect) : ℚ :=
  (specRegionMean img roi 0 + specRegionMean img roi 1 + specRegionMean img roi 2) / 3 / 255

/-! ## Single precision -/

open SimpleThresholdTrigger

theorem truncToInt_of_bounds (q : ℚ) (n : Int) (h0 : 0 ≤ q) (h1 : (n : ℚ) ≤ q)
    (h2 : q < (n : ℚ) + 1) : truncToInt q = n := by
  unfold truncToInt
  rw [if_pos h0]
  exact Int.floor_eq_iff.mpr ⟨h1, h2⟩

theorem contains_uniform_unit (v : Nat) : (uniformImage 1 1 v).contains unitRect := by
  simp [Mat.contains, uniformImage, unitRect]

theorem rawMovement_uniform_unit (v : Nat) :
    rawMovement (uniformImage 1 1 v) unitRect = (v : ℚ) / 255 := by
  simp [rawMovement, cvMean, regionSum, uniformImage, unitRect]
  ring

theorem update_uniform_unit (t : SimpleThresholdTrigger) (v : Nat) (now : ℚ)
    (hloc : t.mLocation = unitRect) :
    t.update (uniformImage 1 1 v) now = some (t.updateShaped (shape ((v : ℚ) / 255)) now) := by
  unfold update
  rw [hloc, if_pos (contains_uniform_unit v), rawMovement_uniform_unit]

theorem update_fresh_white :
    (construct 60 unitRect).update (uniformImage 1 1 255) 0
      = some (playingTrigger, [⟨1, 60, 127⟩]) := by
  have ht : truncToInt (637 / 4) = 159 :=
    truncToInt_of_bounds _ 159 (by norm_num) (by norm_num) (by norm_num)
  rw [update_uniform_unit _ _ _ rfl]
  simp only [updateShaped, construct, shape, playingTrigger]
  norm_num [ht]

theorem updateShaped_mThreshold (t : SimpleThresholdTrigger) (s now : ℚ) :
    (t.updateShaped s now).1.mThreshold = t.mThreshold := by
  unfold updateShaped
  simp only
  split_ifs <;> rfl

theorem updateShaped_mMidiPitch (t : SimpleThresholdTrigger) (s now : ℚ) :
    (t.updateShaped s now).1.mMidiPitch = t.mMidiPitch := by
  unfold updateShaped
  simp only
  split_ifs <;> rfl

theorem updateShaped_mPreviousMovement (t : SimpleThresholdTrigger) (s now : ℚ) :
    (t.updateShaped s now).1.mPreviousMovement = s / (1 - t.mThreshold) := by
  unfold updateShaped
  simp only
  split_ifs <;> rfl

/-- With `mThreshold < 1` the normalised amount above the threshold is positive exactly when
the shaped value is above the threshold. -/
theorem amountAbove_pos_iff (thr s : ℚ) (hthr : thr < 1) :
    0 < (s - thr) / (1 - thr) ↔ thr < s := by
  have hr : 0 < 1 - thr := sub_pos.mpr hthr
  rw [div_pos_iff_of_pos_right hr, sub_pos]

/-- With `mThreshold < 1` the normalised amount above the threshold is negative exactly when
the shaped value is below the threshold. -/
theorem amountAbove_neg_iff (thr s : ℚ) (hthr : thr < 1) :
    (s - thr) / (1 - thr) < 0 ↔ s < thr := by
  have hr : 0 < 1 - thr := sub_pos.mpr hthr
  rw [div_neg_iff]
  constructor
  · rintro (⟨_, h⟩ | ⟨h, _⟩)
    · exact absurd hr (not_lt.mpr h.le)
    · exact sub_neg.mp h
  · intro h
    exact Or.inr ⟨sub_neg.mpr h, hr⟩

/-- The note-on branch of `update` (lines 60 to 77). -/
theorem updateShaped_noteOn (t : SimpleThresholdTrigger) (s now : ℚ) (hthr : t.mThreshold < 1)
    (hs : t.mThreshold < s) (hprev : t.mPreviousMovement < t.mThreshold) :
    t.updateShaped s now =
      ({ t with
          mNoteIsPlaying := true
          mTimeNoteStarted := now
          mNoteVelocity := (s - t.mThreshold) / (1 - t.mThreshold) / (1 - t.mThreshold)
          mPreviousMovement := s / (1 - t.mThreshold) },
        [⟨1, t.mMidiPitch,
          min 127 (max 0 (truncToInt
            ((s - t.mThreshold) / (1 - t.mThreshold) / (1 - t.mThreshold) * 127 + 1 / 2)))⟩]) := by
  have h1 : (s - t.mThreshold) / (1 - t.mThreshold) > 0 :=
    (amountAbove_pos_iff _ _ hthr).mpr hs
  have h2 : t.mPreviousMovement - t.mThreshold < 0 := sub_neg.mpr hprev
  unfold updateShaped
  simp only
  rw [if_pos ⟨h1, h2⟩]

/-- The note-off branch of `update` (lines 78 to 83). -/
theorem updateShaped_noteOff (t : SimpleThresholdTrigger) (s now : ℚ) (hthr : t.mThreshold < 1)
    (hs : s < t.mThreshold) (hplay : t.mNoteIsPlaying = true) :
    t.updateShaped s now =
      ({ t with
          mNoteIsPlaying := false
          mPreviousMovement := s / (1 - t.mThreshold) },
        [⟨1, t.mMidiPitch, 0⟩]) := by
  have h1 : (s - t.mThreshold) / (1 - t.mThreshold) < 0 :=
    (amountAbove_neg_iff _ _ hthr).mpr hs
  unfold updateShaped
  simp only
  rw [if_neg (fun h => absurd h.1 (not_lt.mpr h1.le)), if_pos ⟨h1, hplay⟩]

/-- Neither branch of `update` is taken: only `mPreviousMovement` is assigned. -/
theorem updateShaped_idle (t : SimpleThresholdTrigger) (s now : ℚ)
    (hon : ¬ ((s - t.mThreshold) / (1 - t.mThreshold) > 0 ∧
      t.mPreviousMovement - t.mThreshold < 0))
    (hoff : ¬ ((s - t.mThreshold) / (1 - t.mThreshold) < 0 ∧ t.mNoteIsPlaying = true)) :
    t.updateShaped s now = ({ t with mPreviousMovement := s / (1 - t.mThreshold) }, []) := by
  unfold updateShaped
  simp only
  rw [if_neg hon, if_neg hoff]

/-- After an `update` with a shaped value below the threshold no note is playing. -/
theorem updateShaped_below_not_playing (t : SimpleThresholdTrigger) (s now : ℚ)
    (hthr : t.mThreshold < 1) (hs : s < t.mThreshold) :
    (t.updateShaped s now).1.mNoteIsPlaying = false := by
  cases hplay : t.mNoteIsPlaying with
  | true => rw [updateShaped_noteOff t s now hthr hs hplay]
  | false =>
    rw [updateShaped_idle t s now]
    · exact hplay
    · intro h
      exact absurd ((amountAbove_pos_iff _ _ hthr).mp h.1) (not_lt.mpr hs.le)
    · intro h
      rw [hplay] at h
      exact absurd h.2 (by decide)

/-- Every message `update` sends while leaving `mNoteIsPlaying` set is a note-on of line 72:
channel 1 and the pitch of the trigger. -/
theorem updateShaped_noteOn_channel_pitch (t : SimpleThresholdTrigger) (s now : ℚ) (m : MidiMsg)
    (hplay : (t.updateShaped s now).1.mNoteIsPlaying = true)
    (hm : m ∈ (t.updateShaped s now).2) : m.channel = 1 ∧ m.pitch = t.mMidiPitch := by
  unfold updateShaped at hplay hm
  simp only at hplay hm
  split_ifs at hplay hm
  · rw [List.mem_singleton] at hm
    subst hm
    exact ⟨rfl, rfl⟩
  · exact absurd hm (List.not_mem_nil m)

/-! ## The note-playing flag and `flush` -/

/-- C1, evaluated on the code: a freshly constructed trigger receives one `update` with an
all-white image and then one `flush`.  The last message sent is the note-off of `flush`
(velocity 0), yet `mNoteIsPlaying` is still true afterwards, because `flush` does not
clear it. -/
theorem noteIsPlaying_true_after_flush :
    (runCalls (construct 60 unitRect)
        [Call.update (uniformImage 1 1 255) 0, Call.flush]).map
        (fun r => (r.1.mNoteIsPlaying, r.2))
      = some (true, [⟨1, 60, 127⟩, ⟨0, 60, 0⟩]) := by
  simp only [runCalls, Call.perform]
  rw [update_fresh_white]
  rfl

/-- C2, evaluated on the code: with a note playing, two `flush` calls in a row send two
note-offs; the second call sends a message again. -/
theorem flush_twice_sends_two_note_offs :
    playingTrigger.mNoteIsPlaying = true ∧
    playingTrigger.flush.2 = [⟨0, 60, 0⟩] ∧
    playingTrigger.flush.1.flush.2 = [⟨0, 60, 0⟩] ∧
    (runCalls (construct 60 unitRect)
        [Call.update (uniformImage 1 1 255) 0, Call.flush, Call.flush]).map
        (fun r => r.2)
      = some [⟨1, 60, 127⟩, ⟨0, 60, 0⟩, ⟨0, 60, 0⟩] := by
  refine ⟨rfl, rfl, rfl, ?_⟩
  simp only [runCalls, Call.perform]
  rw [update_fresh_white]
  rfl

/-- C3, evaluated on the code: the note-on of `update` goes out on channel 1, the note-off
of `update` on channel 1, and the note-off of `flush` (and of the destructor) on
channel 0. -/
theorem flush_note_off_on_other_channel :
    (construct 60 unitRect).update (uniformImage 1 1 255) 0
      = some (playingTrigger, [⟨1, 60, 127⟩]) ∧
    playingTrigger.flush.2 = [⟨0, 60, 0⟩] ∧
    playingTrigger.destruct = [⟨0, 60, 0⟩] ∧
    (playingTrigger.update (uniformImage 1 1 0) 1).map (fun r => r.2)
      = some [⟨1, 60, 0⟩] := by
  refine ⟨update_fresh_white, rfl, rfl, ?_⟩
  rw [update_uniform_unit _ _ _ rfl]
  simp only [updateShaped, playingTrigger, shape, Option.map_some']
  norm_num

/-- C7: `flush` leaves every field as it is; with a note playing it sends exactly one
message, a `sendNoteOn` with the pitch of the trigger and velocity 0, and so does the
destructor; with no note playing it sends nothing, and so does the destructor; in
particular a freshly constructed trigger sends nothing. -/
theorem flush_sends_one_note_off_iff_playing (t : SimpleThresholdTrigger) :
    (t.mNoteIsPlaying = true →
      t.flush.2 = [⟨0, t.mMidiPitch, 0⟩] ∧ t.destruct = [⟨0, t.mMidiPitch, 0⟩] ∧
        t.flush.1 = t) ∧
    (t.mNoteIsPlaying = false → t.flush.2 = [] ∧ t.destruct = [] ∧ t.flush.1 = t) ∧
    (∀ (pitch : Int) (location : Rect),
      (construct pitch location).flush = (construct pitch location, [])) := by
  refine ⟨?_, ?_, ?_⟩
  · intro h
    simp [flush, destruct, h]
  · intro h
    simp [flush, destruct, h]
  · intro pitch location
    simp [flush, construct]

/-- C7 at a trigger with a note playing and at a freshly constructed one. -/
theorem flush_sends_one_note_off_iff_playing_witness :
    (playingTrigger.flush.2 = [⟨0, playingTrigger.mMidiPitch, 0⟩] ∧
      playingTrigger.destruct = [⟨0, playingTrigger.mMidiPitch, 0⟩] ∧
      playingTrigger.flush.1 = playingTrigger) ∧
    ((construct 60 unitRect).flush.2 = [] ∧ (construct 60 unitRect).destruct = [] ∧
      (construct 60 unitRect).flush.1 = construct 60 unitRect) :=
  ⟨(flush_sends_one_note_off_iff_playing playingTrigger).1 rfl,
    (flush_sends_one_note_off_iff_playing (construct 60 unitRect)).2.1 rfl⟩

/-! ## Threshold crossings in `update` -/

/-- C4, evaluated on the code: a freshly constructed trigger (threshold 0.2) receives an
`update` with a one-pixel image of value 17 (shaped value 631/3375, about 0.187, at most the
threshold) and then an `update` with a one-pixel image of value 53 (shaped value about 0.503,
above the threshold).  The second call sends nothing and `mNoteIsPlaying` stays cleared: the
first call stored 0.187 / 0.8, about 0.234, which line 52 compares with the threshold. -/
theorem upward_crossing_after_normalised_store_is_silent :
    shape (rawMovement (uniformImage 1 1 17) unitRect) ≤ (construct 60 unitRect).mThreshold ∧
    (construct 60 unitRect).mThreshold < shape (rawMovement (uniformImage 1 1 53) unitRect) ∧
    ((construct 60 unitRect).update (uniformImage 1 1 17) 0).map
        (fun r => (r.1.mPreviousMovement, r.2)) = some (631 / 2700, []) ∧
    (runCalls (construct 60 unitRect)
        [Call.update (uniformImage 1 1 17) 0, Call.update (uniformImage 1 1 53) 1]).map
        (fun r => (r.1.mNoteIsPlaying, r.2)) = some (false, []) := by
  have e1 : (construct 60 unitRect).updateShaped (shape (((17 : Nat) : ℚ) / 255)) 0
      = ({ construct 60 unitRect with mPreviousMovement := 631 / 2700 }, []) := by
    simp only [updateShaped, construct, shape]
    norm_num
  refine ⟨?_, ?_, ?_, ?_⟩
  · rw [rawMovement_uniform_unit]
    norm_num [shape, construct]
  · rw [rawMovement_uniform_unit]
    norm_num [shape, construct]
  · rw [update_uniform_unit _ _ _ rfl, e1]
    rfl
  · simp only [runCalls, Call.perform]
    rw [update_uniform_unit _ _ _ rfl, e1]
    simp only []
    rw [update_uniform_unit _ _ _ rfl]
    simp only [updateShaped, construct, shape]
    norm_num

/-- C5, evaluated on the code: after one `update` of a freshly constructed trigger with an
all-white image (raw movement 1, shaped value 1) the stored `mPreviousMovement` is 1.25, not
the shaped value 1: line 85 stores the value line 55 has divided by `1 - mThreshold`. -/
theorem previousMovement_not_unnormalised :
    rawMovement (uniformImage 1 1 255) unitRect = 1 ∧
    shape (rawMovement (uniformImage 1 1 255) unitRect) = 1 ∧
    ((construct 60 unitRect).update (uniformImage 1 1 255) 0).map
        (fun r => r.1.mPreviousMovement) = some (5 / 4) ∧
    (5 / 4 : ℚ) ≠ shape (rawMovement (uniformImage 1 1 255) unitRect) := by
  have hraw : rawMovement (uniformImage 1 1 255) unitRect = 1 := by
    rw [rawMovement_uniform_unit]
    norm_num
  refine ⟨hraw, ?_, ?_, ?_⟩
  · rw [hraw]
    norm_num [shape]
  · rw [update_fresh_white]
    rfl
  · rw [hraw]
    norm_num [shape]

/-- C6, evaluated on the code: a freshly constructed trigger receives an `update` with an image
whose pixels all have the value 51 (raw movement 0.2, shaped value 0.488).  The note-on
carries velocity 57; dividing the above-threshold amount by `1 - threshold` once gives 46. -/
theorem noteOn_velocity_divided_twice :
    shape (rawMovement (uniformImage 1 1 51) unitRect) = 61 / 125 ∧
    ((construct 60 unitRect).update (uniformImage 1 1 51) 0).map (fun r => r.2)
      = some [⟨1, 60, 57⟩] ∧
    specVelocity (61 / 125) (construct 60 unitRect).mThreshold = 46 := by
  have ht : truncToInt (1153 / 20) = 57 :=
    truncToInt_of_bounds _ 57 (by norm_num) (by norm_num) (by norm_num)
  have hr : round (1143 / 25 : ℚ) = 46 := by
    rw [round_eq]
    exact Int.floor_eq_iff.mpr ⟨by norm_num, by norm_num⟩
  refine ⟨?_, ?_, ?_⟩
  · rw [rawMovement_uniform_unit]
    norm_num [shape]
  · rw [update_uniform_unit _ _ _ rfl]
    simp only [updateShaped, construct, shape, Option.map_some']
    norm_num [ht]
  · simp only [specVelocity, construct]
    norm_num [hr]

/-- C8: starting from a freshly constructed trigger, four `update` calls with shaped values
0.1, 0.25, 0.5 and 0.15 send nothing, one note-on (channel 1, velocity 10), nothing, and one
note-off (channel 1, velocity 0): two messages in total. -/
theorem four_updates_send_one_note_on_one_note_off (pitch : Int) (location : Rect)
    (n1 n2 n3 n4 : ℚ) :
    ((construct pitch location).updateShaped (1 / 10) n1).2 = [] ∧
    (((construct pitch location).updateShaped (1 / 10) n1).1.updateShaped (1 / 4) n2).2
      = [⟨1, pitch, 10⟩] ∧
    ((((construct pitch location).updateShaped (1 / 10) n1).1.updateShaped
      (1 / 4) n2).1.updateShaped (1 / 2) n3).2 = [] ∧
    (((((construct pitch location).updateShaped (1 / 10) n1).1.updateShaped
      (1 / 4) n2).1.updateShaped (1 / 2) n3).1.updateShaped (15 / 100) n4).2
      = [⟨1, pitch, 0⟩] := by
  have ht : truncToInt (667 / 64) = 10 :=
    truncToInt_of_bounds _ 10 (by norm_num) (by norm_num) (by norm_num)
  have e1 : (construct pitch location).updateShaped (1 / 10) n1
      = ({ construct pitch location with mPreviousMovement := 1 / 8 }, []) := by
    simp only [updateShaped, construct]
    norm_num
  have e2 : ({ construct pitch location with
      mPreviousMovement := 1 / 8 } : SimpleThresholdTrigger).updateShaped (1 / 4) n2
      = ({ construct pitch location with
          mPreviousMovement := 5 / 16
          mNoteIsPlaying := true
          mTimeNoteStarted := n2
          mNoteVelocity := 5 / 64 }, [⟨1, pitch, 10⟩]) := by
    simp only [updateShaped, construct]
    norm_num [ht]
  have e3 : ({ construct pitch location with
      mPreviousMovement := 5 / 16
      mNoteIsPlaying := true
      mTimeNoteStarted := n2
      mNoteVelocity := 5 / 64 } : SimpleThresholdTrigger).updateShaped (1 / 2) n3
      = ({ construct pitch location with
          mPreviousMovement := 5 / 8
          mNoteIsPlaying := true
          mTimeNoteStarted := n2
          mNoteVelocity := 5 / 64 }, []) := by
    simp only [updateShaped, construct]
    norm_num
  have e4 : ({ construct pitch location with
      mPreviousMovement := 5 / 8
      mNoteIsPlaying := true
      mTimeNoteStarted := n2
      mNoteVelocity := 5 / 64 } : SimpleThresholdTrigger).updateShaped (15 / 100) n4
      = ({ construct pitch location with
          mPreviousMovement := 3 / 16
          mNoteIsPlaying := false
          mTimeNoteStarted := n2
          mNoteVelocity := 5 / 64 }, [⟨1, pitch, 0⟩]) := by
    simp only [updateShaped, construct]
    norm_num
  rw [e1, e2, e3, e4]
  exact ⟨rfl, rfl, rfl, rfl⟩

/-- C9: for a trigger with threshold below 1 and two consecutive `update` calls whose shaped
values are both strictly above the threshold, or both strictly below it, the second call
sends no message and leaves `mNoteIsPlaying` as the first call left it. -/
theorem no_message_without_crossing (t : SimpleThresholdTrigger) (s1 s2 n1 n2 : ℚ)
    (hthr : t.mThreshold < 1)
    (h : (t.mThreshold < s1 ∧ t.mThreshold < s2) ∨ (s1 < t.mThreshold ∧ s2 < t.mThreshold)) :
    ((t.updateShaped s1 n1).1.updateShaped s2 n2).2 = [] ∧
    ((t.updateShaped s1 n1).1.updateShaped s2 n2).1.mNoteIsPlaying
      = (t.updateShaped s1 n1).1.mNoteIsPlaying := by
  have hr : 0 < 1 - t.mThreshold := sub_pos.mpr hthr
  have hidle : (t.updateShaped s1 n1).1.updateShaped s2 n2
      = ({ (t.updateShaped s1 n1).1 with
          mPreviousMovement := s2 / (1 - (t.updateShaped s1 n1).1.mThreshold) }, []) := by
    apply updateShaped_idle
    · rw [updateShaped_mThreshold, updateShaped_mPreviousMovement]
      rintro ⟨hnow, hprev⟩
      rcases h with ⟨h1, _⟩ | ⟨_, h2⟩
      · have hlt : s1 < t.mThreshold * (1 - t.mThreshold) :=
          (div_lt_iff₀ hr).mp (sub_neg.mp hprev)
        nlinarith [sq_nonneg t.mThreshold]
      · exact absurd ((amountAbove_pos_iff _ _ hthr).mp hnow) (not_lt.mpr h2.le)
    · rw [updateShaped_mThreshold]
      rintro ⟨hnow, hplay⟩
      rcases h with ⟨_, h2⟩ | ⟨h1, _⟩
      · exact absurd ((amountAbove_neg_iff _ _ hthr).mp hnow) (not_lt.mpr h2.le)
      · rw [updateShaped_below_not_playing t s1 n1 hthr h1] at hplay
        exact absurd hplay (by decide)
  rw [hidle]
  exact ⟨rfl, rfl⟩

/-- C9 at a freshly constructed trigger, with shaped values 0.5 and then 0.6, both above the
threshold 0.2. -/
theorem no_message_without_crossing_witness :
    (construct 60 unitRect).mThreshold < 1 ∧
    (((construct 60 unitRect).mThreshold < 1 / 2 ∧ (construct 60 unitRect).mThreshold < 6 / 10) ∨
      ((1 / 2 : ℚ) < (construct 60 unitRect).mThreshold ∧
        (6 / 10 : ℚ) < (construct 60 unitRect).mThreshold)) ∧
    (((construct 60 unitRect).updateShaped (1 / 2) 0).1.updateShaped (6 / 10) 1).2 = [] ∧
    (((construct 60 unitRect).updateShaped (1 / 2) 0).1.updateShaped (6 / 10) 1).1.mNoteIsPlaying
      = ((construct 60 unitRect).updateShaped (1 / 2) 0).1.mNoteIsPlaying :=
  have h1 : (construct 60 unitRect).mThreshold < 1 := by
    norm_num [construct]
  have h2 : ((construct 60 unitRect).mThreshold < 1 / 2 ∧
      (construct 60 unitRect).mThreshold < 6 / 10) ∨
      ((1 / 2 : ℚ) < (construct 60 unitRect).mThreshold ∧
        (6 / 10 : ℚ) < (construct 60 unitRect).mThreshold) := by
    norm_num [construct]
  ⟨h1, h2, no_message_without_crossing (construct 60 unitRect) (1 / 2) (6 / 10) 0 1 h1 h2⟩

/-- C10: for a trigger with threshold below 1 and a note playing, an `update` whose shaped
value is strictly below the threshold sends exactly one message, a `sendNoteOn` with
velocity 0 on channel 1 with the pitch of the trigger, clears `mNoteIsPlaying`, and leaves
`mTimeNoteStarted` and `mNoteVelocity` as they were; channel 1 and that pitch are what every
note-on of `update` for a trigger of the same pitch carries. -/
theorem downward_crossing_sends_note_off (t : SimpleThresholdTrigger) (s now : ℚ)
    (hthr : t.mThreshold < 1) (hplay : t.mNoteIsPlaying = true) (hs : s < t.mThreshold) :
    (t.updateShaped s now).2 = [⟨1, t.mMidiPitch, 0⟩] ∧
    (t.updateShaped s now).1.mNoteIsPlaying = false ∧
    (t.updateShaped s now).1.mTimeNoteStarted = t.mTimeNoteStarted ∧
    (t.updateShaped s now).1.mNoteVelocity = t.mNoteVelocity ∧
    (∀ (t0 : SimpleThresholdTrigger) (s0 n0 : ℚ) (m : MidiMsg),
      t0.mMidiPitch = t.mMidiPitch →
      (t0.updateShaped s0 n0).1.mNoteIsPlaying = true →
      m ∈ (t0.updateShaped s0 n0).2 →
      m.channel = 1 ∧ m.pitch = t.mMidiPitch) := by
  rw [updateShaped_noteOff t s now hthr hs hplay]
  refine ⟨rfl, rfl, rfl, rfl, ?_⟩
  intro t0 s0 n0 m hpitch hon hm
  rw [← hpitch]
  exact updateShaped_noteOn_channel_pitch t0 s0 n0 m hon hm

/-- C10 at the trigger with a note playing, with shaped value 0.1. -/
theorem downward_crossing_sends_note_off_witness :
    playingTrigger.mThreshold < 1 ∧ playingTrigger.mNoteIsPlaying = true ∧
    (1 / 10 : ℚ) < playingTrigger.mThreshold ∧
    (playingTrigger.updateShaped (1 / 10) 1).2 = [⟨1, playingTrigger.mMidiPitch, 0⟩] ∧
    (playingTrigger.updateShaped (1 / 10) 1).1.mNoteIsPlaying = false ∧
    (playingTrigger.updateShaped (1 / 10) 1).1.mTimeNoteStarted
      = playingTrigger.mTimeNoteStarted ∧
    (playingTrigger.updateShaped (1 / 10) 1).1.mNoteVelocity = playingTrigger.mNoteVelocity ∧
    (∀ (t0 : SimpleThresholdTrigger) (s0 n0 : ℚ) (m : MidiMsg),
      t0.mMidiPitch = playingTrigger.mMidiPitch →
      (t0.updateShaped s0 n0).1.mNoteIsPlaying = true →
      m ∈ (t0.updateShaped s0 n0).2 →
      m.channel = 1 ∧ m.pitch = playingTrigger.mMidiPitch) :=
  have h1 : playingTrigger.mThreshold < 1 := by
    norm_num [playingTrigger]
  have h3 : (1 / 10 : ℚ) < playingTrigger.mThreshold := by
    norm_num [playingTrigger]
  ⟨h1, rfl, h3, downward_crossing_sends_note_off playingTrigger (1 / 10) 1 h1 rfl h3⟩

/-! ## Further auxiliary facts -/

theorem cube_le_cube (a b : ℚ) (h : a ≤ b) : a ^ 3 ≤ b ^ 3 := by
  have hfac : b ^ 3 - a ^ 3 = (b - a) * (((a + b) ^ 2 + a ^ 2 + b ^ 2) / 2) := by ring
  have hnn : 0 ≤ (b - a) * (((a + b) ^ 2 + a ^ 2 + b ^ 2) / 2) :=
    mul_nonneg (sub_nonneg.mpr h) (by positivity)
  linarith

theorem shape_mono (r1 r2 : ℚ) (h : r1 ≤ r2) : shape r1 ≤ shape r2 := by
  unfold shape
  have hc : (1 - r2) ^ 3 ≤ (1 - r1) ^ 3 := cube_le_cube _ _ (by linarith)
  linarith

theorem shape_zero : shape 0 = 0 := by
  norm_num [shape]

theorem shape_one : shape 1 = 1 := by
  norm_num [shape]

theorem shape_nonneg (r : ℚ) (h : 0 ≤ r) : 0 ≤ shape r := by
  have hm := shape_mono 0 r h
  rwa [shape_zero] at hm

theorem shape_le_one (r : ℚ) (h : r ≤ 1) : shape r ≤ 1 := by
  have hm := shape_mono r 1 h
  rwa [shape_one] at hm

/-- An `update` sends a note-on exactly when the guard of line 60 holds. -/
theorem sendsNoteOn_iff_guard (t : SimpleThresholdTrigger) (s now : ℚ) :
    SendsNoteOn t s now ↔
      ((s - t.mThreshold) / (1 - t.mThreshold) > 0 ∧ t.mPreviousMovement - t.mThreshold < 0) := by
  unfold SendsNoteOn updateShaped
  simp only
  split_ifs with h1 h2
  · exact ⟨fun _ => h1, fun _ => ⟨List.cons_ne_nil _ _, rfl⟩⟩
  · exact ⟨fun h => h.2.elim, fun h => absurd h h1⟩
  · exact ⟨fun h => absurd rfl h.1, fun h => absurd h h1⟩

/-- An `update` sends a note-off exactly when the guard of line 60 fails and the guard of
line 78 holds. -/
theorem sendsNoteOff_iff_guard (t : SimpleThresholdTrigger) (s now : ℚ) :
    SendsNoteOff t s now ↔
      (¬ ((s - t.mThreshold) / (1 - t.mThreshold) > 0 ∧
          t.mPreviousMovement - t.mThreshold < 0) ∧
        ((s - t.mThreshold) / (1 - t.mThreshold) < 0 ∧ t.mNoteIsPlaying = true)) := by
  unfold SendsNoteOff updateShaped
  simp only
  split_ifs with h1 h2
  · exact ⟨fun h => h.2.elim, fun h => absurd h1 h.1⟩
  · exact ⟨fun _ => ⟨h1, h2⟩, fun _ => ⟨List.cons_ne_nil _ _, rfl⟩⟩
  · exact ⟨fun h => absurd rfl h.1, fun h => absurd h.2 h2⟩

theorem updateShaped_fresh_one :
    (construct 60 unitRect).updateShaped 1 0 = (playingTrigger, [⟨1, 60, 127⟩]) := by
  have ht : truncToInt (637 / 4) = 159 :=
    truncToInt_of_bounds _ 159 (by norm_num) (by norm_num) (by norm_num)
  simp only [updateShaped, construct, playingTrigger]
  norm_num [ht]

/-! ## Ties, velocities and the shaping curve -/

/-- C11: for every trigger state, an `update` whose shaped value equals the threshold sends no
message and leaves `mNoteIsPlaying`, `mTimeNoteStarted` and `mNoteVelocity` as they were. -/
theorem tie_sends_nothing (t : SimpleThresholdTrigger) (now : ℚ) :
    (t.updateShaped t.mThreshold now).2 = [] ∧
    (t.updateShaped t.mThreshold now).1.mNoteIsPlaying = t.mNoteIsPlaying ∧
    (t.updateShaped t.mThreshold now).1.mTimeNoteStarted = t.mTimeNoteStarted ∧
    (t.updateShaped t.mThreshold now).1.mNoteVelocity = t.mNoteVelocity := by
  have hzero : (t.mThreshold - t.mThreshold) / (1 - t.mThreshold) = 0 := by
    rw [sub_self, zero_div]
  rw [updateShaped_idle t t.mThreshold now]
  · exact ⟨rfl, rfl, rfl, rfl⟩
  · rw [hzero]
    exact fun h => lt_irrefl 0 h.1
  · rw [hzero]
    exact fun h => lt_irrefl 0 h.1

/-- C13: for every trigger state and every shaped value, every message sent by `update`, by
`flush` or by the destructor carries a velocity between 0 and 127. -/
theorem velocity_in_midi_range (t : SimpleThresholdTrigger) (s now : ℚ) (m : MidiMsg)
    (hm : m ∈ (t.updateShaped s now).2 ∨ m ∈ t.flush.2 ∨ m ∈ t.destruct) :
    0 ≤ m.velocity ∧ m.velocity ≤ 127 := by
  have hflush : m ∈ t.flush.2 → 0 ≤ m.velocity ∧ m.velocity ≤ 127 := by
    intro h
    unfold flush at h
    split_ifs at h
    · rw [List.mem_singleton] at h
      subst h
      exact ⟨le_refl 0, by norm_num⟩
    · exact absurd h (List.not_mem_nil m)
  rcases hm with h | h | h
  · unfold updateShaped at h
    simp only at h
    split_ifs at h
    · rw [List.mem_singleton] at h
      subst h
      exact ⟨le_min (by norm_num) (le_max_left _ _), min_le_left _ _⟩
    · rw [List.mem_singleton] at h
      subst h
      exact ⟨le_refl 0, by norm_num⟩
    · exact absurd h (List.not_mem_nil m)
  · exact hflush h
  · exact hflush h

/-- C13 at the note-on a freshly constructed trigger sends for shaped value 1. -/
theorem velocity_in_midi_range_witness :
    ((⟨1, 60, 127⟩ : MidiMsg) ∈ ((construct 60 unitRect).updateShaped 1 0).2 ∨
      (⟨1, 60, 127⟩ : MidiMsg) ∈ (construct 60 unitRect).flush.2 ∨
      (⟨1, 60, 127⟩ : MidiMsg) ∈ (construct 60 unitRect).destruct) ∧
    (0 ≤ (⟨1, 60, 127⟩ : MidiMsg).velocity ∧ (⟨1, 60, 127⟩ : MidiMsg).velocity ≤ 127) :=
  have hm : (⟨1, 60, 127⟩ : MidiMsg) ∈ ((construct 60 unitRect).updateShaped 1 0).2 ∨
      (⟨1, 60, 127⟩ : MidiMsg) ∈ (construct 60 unitRect).flush.2 ∨
      (⟨1, 60, 127⟩ : MidiMsg) ∈ (construct 60 unitRect).destruct := by
    rw [updateShaped_fresh_one]
    exact Or.inl (List.mem_singleton.mpr rfl)
  ⟨hm, velocity_in_midi_range (construct 60 unitRect) 1 0 ⟨1, 60, 127⟩ hm⟩

/-- C14: with threshold 0.2 and a stored previous movement below the threshold, an `update`
at raw movement 1 (shaped value 1) sends exactly one message, a note-on with velocity 127. -/
theorem max_motion_sends_velocity_127 (t : SimpleThresholdTrigger) (now : ℚ)
    (hthr : t.mThreshold = 2 / 10) (hprev : t.mPreviousMovement < t.mThreshold) :
    shape 1 = 1 ∧
    (t.updateShaped (shape 1) now).2 = [⟨1, t.mMidiPitch, 127⟩] ∧
    (t.updateShaped (shape 1) now).1.mNoteIsPlaying = true := by
  have ht : truncToInt (637 / 4) = 159 :=
    truncToInt_of_bounds _ 159 (by norm_num) (by norm_num) (by norm_num)
  have hlt : t.mThreshold < 1 := by
    rw [hthr]
    norm_num
  have hs : t.mThreshold < 1 := hlt
  rw [shape_one, updateShaped_noteOn t 1 now hlt hs hprev, hthr]
  refine ⟨rfl, ?_, rfl⟩
  norm_num [ht]

/-- C14 at a freshly constructed trigger. -/
theorem max_motion_sends_velocity_127_witness :
    (construct 60 unitRect).mThreshold = 2 / 10 ∧
    (construct 60 unitRect).mPreviousMovement < (construct 60 unitRect).mThreshold ∧
    shape 1 = 1 ∧
    ((construct 60 unitRect).updateShaped (shape 1) 0).2
      = [⟨1, (construct 60 unitRect).mMidiPitch, 127⟩] ∧
    ((construct 60 unitRect).updateShaped (shape 1) 0).1.mNoteIsPlaying = true :=
  have h2 : (construct 60 unitRect).mPreviousMovement < (construct 60 unitRect).mThreshold := by
    norm_num [construct]
  ⟨rfl, h2, max_motion_sends_velocity_127 (construct 60 unitRect) 0 rfl h2⟩

/-- C15: the shaping function of line 50 is monotonically non-decreasing, takes the value 0
at 0 and 1 at 1, and maps the interval from 0 to 1 into itself. -/
theorem shape_monotone_and_bounded :
    (∀ r1 r2 : ℚ, 0 ≤ r1 → r1 ≤ r2 → r2 ≤ 1 → shape r1 ≤ shape r2) ∧
    shape 0 = 0 ∧ shape 1 = 1 ∧
    (∀ r : ℚ, 0 ≤ r → r ≤ 1 → 0 ≤ shape r ∧ shape r ≤ 1) :=
  ⟨fun r1 r2 _ h _ => shape_mono r1 r2 h, shape_zero, shape_one,
    fun r h0 h1 => ⟨shape_nonneg r h0, shape_le_one r h1⟩⟩

/-- C15 at the raw movements 0.25 and 0.5. -/
theorem shape_monotone_and_bounded_witness :
    shape (1 / 4) ≤ shape (1 / 2) ∧ (0 ≤ shape (1 / 2) ∧ shape (1 / 2) ≤ 1) :=
  ⟨shape_monotone_and_bounded.1 (1 / 4) (1 / 2) (by norm_num) (by norm_num) (by norm_num),
    shape_monotone_and_bounded.2.2.2 (1 / 2) (by norm_num) (by norm_num)⟩

/-! ## The region of interest -/

/-- Images that agree inside the rectangle have the same channel sums over it. -/
theorem regionSum_congr (img1 img2 : Mat) (roi : Rect) (ch : Nat)
    (hx : 0 ≤ roi.x) (hy : 0 ≤ roi.y)
    (hagree : ∀ r c : Nat, roi.y ≤ r → (r : Int) < roi.y + roi.height →
      roi.x ≤ c → (c : Int) < roi.x + roi.width → img1.px r c ch = img2.px r c ch) :
    regionSum img1 roi ch = regionSum img2 roi ch := by
  unfold regionSum
  congr 1
  apply List.map_congr_left
  intro i hi
  congr 1
  apply List.map_congr_left
  intro j hj
  rw [List.mem_range] at hi hj
  rw [hagree (roi.y.toNat + i) (roi.x.toNat + j) (by omega) (by omega) (by omega) (by omega)]

theorem list_range_map_sum (f : Nat → ℚ) (n : Nat) :
    ((List.range n).map f).sum = Finset.sum (Finset.range n) f := by
  induction n with
  | zero => rfl
  | succ k ih =>
    rw [List.range_succ, List.map_append, List.sum_append, ih, Finset.sum_range_succ]
    simp

/-- The channel sum `update` works from is the sum over exactly the pixels of the region. -/
theorem regionSum_eq_sum (img : Mat) (roi : Rect) (ch : Nat) :
    regionSum img roi ch
      = Finset.sum (Finset.Ico roi.y.toNat (roi.y.toNat + roi.height.toNat)) fun r =>
          Finset.sum (Finset.Ico roi.x.toNat (roi.x.toNat + roi.width.toNat)) fun c =>
            (img.px r c ch : ℚ) := by
  unfold regionSum
  rw [list_range_map_sum, Finset.sum_Ico_eq_sum_range, Nat.add_sub_cancel_left]
  apply Finset.sum_congr rfl
  intro i _
  rw [list_range_map_sum, Finset.sum_Ico_eq_sum_range, Nat.add_sub_cancel_left]

/-- The raw movement of lines 46 to 48 is the raw motion of the specification. -/
theorem rawMovement_eq_specRawMotion (img : Mat) (roi : Rect) :
    rawMovement img roi = specRawMotion img roi := by
  unfold rawMovement specRawMotion cvMean specRegionMean
  simp only [regionSum_eq_sum]

/-- C16: for every trigger state and every two difference images that contain the region and
agree on all pixels inside it, `update` returns, and returns the same messages and the same
resulting state for both; the raw movement it works from is, for each channel, the sum of
the pixel values inside the region divided by the number of those pixels, these three means
averaged, divided by 255. -/
theorem update_reads_only_region (t : SimpleThresholdTrigger) (img1 img2 : Mat) (now : ℚ)
    (h1 : img1.contains t.mLocation) (h2 : img2.contains t.mLocation)
    (hagree : ∀ r c ch : Nat, t.mLocation.y ≤ r → (r : Int) < t.mLocation.y + t.mLocation.height →
      t.mLocation.x ≤ c → (c : Int) < t.mLocation.x + t.mLocation.width →
      img1.px r c ch = img2.px r c ch) :
    t.update img1 now = t.update img2 now ∧
    t.update img1 now
      = some (t.updateShaped (shape (specRawMotion img1 t.mLocation)) now) ∧
    rawMovement img1 t.mLocation = specRawMotion img1 t.mLocation ∧
    rawMovement img2 t.mLocation = specRawMotion img1 t.mLocation := by
  have hsum : ∀ ch : Nat, regionSum img1 t.mLocation ch = regionSum img2 t.mLocation ch :=
    fun ch => regionSum_congr img1 img2 t.mLocation ch h1.1 h1.2.2.2.1
      (fun r c => hagree r c ch)
  have hraw : rawMovement img1 t.mLocation = rawMovement img2 t.mLocation := by
    unfold rawMovement cvMean
    simp only [hsum]
  unfold update
  rw [if_pos h1, if_pos h2]
  refine ⟨by rw [hraw], by rw [rawMovement_eq_specRawMotion], rawMovement_eq_specRawMotion _ _, ?_⟩
  rw [← hraw]
  exact rawMovement_eq_specRawMotion _ _

/-- C16 at a freshly constructed trigger on the pixel at the origin and two 2-by-2 images that
agree on that pixel (value 51) and differ on the three others (0 against 200): the raw motion
is 51/255 = 0.2 for both, and both calls send the note-on with velocity 57. -/
theorem update_reads_only_region_witness :
    (spotImage 2 2 51 0).contains (construct 60 unitRect).mLocation ∧
    (spotImage 2 2 51 200).contains (construct 60 unitRect).mLocation ∧
    (spotImage 2 2 51 0).px 1 1 0 ≠ (spotImage 2 2 51 200).px 1 1 0 ∧
    specRawMotion (spotImage 2 2 51 0) (construct 60 unitRect).mLocation = 1 / 5 ∧
    ((construct 60 unitRect).update (spotImage 2 2 51 200) 0).map (fun r => r.2)
      = some [⟨1, 60, 57⟩] ∧
    ((construct 60 unitRect).update (spotImage 2 2 51 0) 0
      = (construct 60 unitRect).update (spotImage 2 2 51 200) 0 ∧
    (construct 60 unitRect).update (spotImage 2 2 51 0) 0
      = some ((construct 60 unitRect).updateShaped
          (shape (specRawMotion (spotImage 2 2 51 0) (construct 60 unitRect).mLocation)) 0) ∧
    rawMovement (spotImage 2 2 51 0) (construct 60 unitRect).mLocation
      = specRawMotion (spotImage 2 2 51 0) (construct 60 unitRect).mLocation ∧
    rawMovement (spotImage 2 2 51 200) (construct 60 unitRect).mLocation
      = specRawMotion (spotImage 2 2 51 0) (construct 60 unitRect).mLocation) :=
  have h1 : (spotImage 2 2 51 0).contains (construct 60 unitRect).mLocation := by
    simp [Mat.contains, spotImage, construct, unitRect]
  have h2 : (spotImage 2 2 51 200).contains (construct 60 unitRect).mLocation := by
    simp [Mat.contains, spotImage, construct, unitRect]
  have hagree : ∀ r c ch : Nat, (construct 60 unitRect).mLocation.y ≤ r →
      (r : Int) < (construct 60 unitRect).mLocation.y + (construct 60 unitRect).mLocation.height →
      (construct 60 unitRect).mLocation.x ≤ c →
      (c : Int) < (construct 60 unitRect).mLocation.x + (construct 60 unitRect).mLocation.width →
      (spotImage 2 2 51 0).px r c ch = (spotImage 2 2 51 200).px r c ch := by
    intro r c ch _ hr _ hc
    have hr0 : r = 0 := by
      simp only [construct, unitRect] at hr
      omega
    have hc0 : c = 0 := by
      simp only [construct, unitRect] at hc
      omega
    simp [spotImage, hr0, hc0]
  have hspec : specRawMotion (spotImage 2 2 51 0) (construct 60 unitRect).mLocation = 1 / 5 := by
    simp [specRawMotion, specRegionMean, spotImage, construct, unitRect]
    norm_num
  have hthm := update_reads_only_region (construct 60 unitRect) (spotImage 2 2 51 0)
    (spotImage 2 2 51 200) 0 h1 h2 hagree
  have hsent : ((construct 60 unitRect).update (spotImage 2 2 51 200) 0).map (fun r => r.2)
      = some [⟨1, 60, 57⟩] := by
    have ht : truncToInt (1153 / 20) = 57 :=
      truncToInt_of_bounds _ 57 (by norm_num) (by norm_num) (by norm_num)
    rw [← hthm.1, hthm.2.1, hspec]
    simp only [updateShaped, construct, shape, Option.map_some']
    norm_num [ht]
  ⟨h1, h2, by simp [spotImage], hspec, hsent, hthm⟩

/-! ## Rendering -/

/-- The 32-bit `int` conversion of an integer-valued `double` in range is that integer. -/
theorem doubleToInt32_intCast (n : Int) (h1 : -2147483648 ≤ n) (h2 : n ≤ 2147483647) :
    doubleToInt32 (n : ℚ) = n := by
  have ht : truncToInt (n : ℚ) = n := by
    unfold truncToInt
    split_ifs
    · exact Int.floor_intCast n
    · exact Int.ceil_intCast n
  unfold doubleToInt32
  rw [ht, if_pos ⟨h1, h2⟩]

/-- Where line 112 does not leave the range of `int`, the seed is the plain sum. -/
theorem drawSeed_of_fits (location : Rect) (hx : 0 ≤ location.x) (hy : 0 ≤ location.y)
    (hfit : 1000 * location.x + 1000000 * location.y + 2367 ≤ 2147483647) :
    drawSeed location = 1000 * location.x + 1000000 * location.y + 2367 := by
  have ex : (1000 : ℚ) * (location.x : ℚ) = ((1000 * location.x : Int) : ℚ) := by push_cast; ring
  have ey : (1000000 : ℚ) * (location.y : ℚ) = ((1000000 * location.y : Int) : ℚ) := by
    push_cast; ring
  unfold drawSeed
  rw [ex, ey, doubleToInt32_intCast _ (by omega) (by omega),
    doubleToInt32_intCast _ (by omega) (by omega)]
  unfold wrapInt32
  omega

/-- C17 as stated fails: `draw` on a freshly constructed trigger, with the generator seeded
with 0 and nothing drawn from it or rendered so far, leaves the generator reseeded with 2367
and one number drawn, and the renderer with calls received: the shared state has changed. -/
theorem draw_reseeds_generator :
    ((construct 60 unitRect).draw sampleEnv ⟨0, 0, []⟩ 0).2.2.rngSeed = 2367 ∧
    ((construct 60 unitRect).draw sampleEnv ⟨0, 0, []⟩ 0).2.2.rngDrawn = 1 ∧
    ((construct 60 unitRect).draw sampleEnv ⟨0, 0, []⟩ 0).2.2 ≠ ⟨0, 0, []⟩ := by
  have h2367 : ((construct 60 unitRect).draw sampleEnv ⟨0, 0, []⟩ 0).2.2.rngSeed = 2367 :=
    drawSeed_of_fits unitRect (by decide) (by decide) (by decide)
  refine ⟨h2367, rfl, ?_⟩
  intro h
  have hseed := congrArg Shared.rngSeed h
  rw [h2367] at hseed
  exact absurd hseed (by decide)

/-- C17, amended: for every trigger state, shared state and current time, `draw` leaves every
trigger field unchanged and sends no MIDI message.  It does change the shared state: one
number has been drawn from the random-number generator since it was reseeded with the
argument of line 112, which is `1000 * x + 1000000 * y + 2367` where `x` and `y` are not
negative and that sum fits a 32-bit `int`, and the renderer has received further calls. -/
theorem draw_leaves_trigger_unchanged (env : DrawEnv) (t : SimpleThresholdTrigger) (w : Shared)
    (now : ℚ) :
    (t.draw env w now).1 = t ∧
    (t.draw env w now).2.1 = [] ∧
    (t.draw env w now).2.2.rngDrawn = 1 ∧
    (t.draw env w now).2.2.rngSeed = drawSeed t.mLocation ∧
    (0 ≤ t.mLocation.x → 0 ≤ t.mLocation.y →
      1000 * t.mLocation.x + 1000000 * t.mLocation.y + 2367 ≤ 2147483647 →
      (t.draw env w now).2.2.rngSeed
        = 1000 * t.mLocation.x + 1000000 * t.mLocation.y + 2367) ∧
    (∃ calls : List RenderCall, calls ≠ [] ∧
      (t.draw env w now).2.2.rendered = w.rendered ++ calls) := by
  refine ⟨rfl, rfl, rfl, rfl, ?_, ?_⟩
  · intro hx hy hfit
    exact drawSeed_of_fits t.mLocation hx hy hfit
  · unfold SimpleThresholdTrigger.draw
    simp only [List.append_assoc]
    exact ⟨_, List.cons_ne_nil _ _, rfl⟩

/-- C17, amended, at a trigger on the rectangle with corner (320, 240): the seed is
240322367. -/
theorem draw_leaves_trigger_unchanged_witness :
    ((construct 60 ⟨320, 240, 64, 48⟩).draw sampleEnv ⟨0, 0, []⟩ 0).2.2.rngSeed
      = 1000 * (construct 60 ⟨320, 240, 64, 48⟩).mLocation.x
        + 1000000 * (construct 60 ⟨320, 240, 64, 48⟩).mLocation.y + 2367 :=
  (draw_leaves_trigger_unchanged sampleEnv (construct 60 ⟨320, 240, 64, 48⟩) ⟨0, 0, []⟩ 0).2.2.2.2.1
    (by decide) (by decide) (by decide)

/-! ## Sequences of `update` calls -/

/-- A shaped value at or above a threshold below 1 is stored as a value at or above it. -/
theorem threshold_le_stored (thr s : ℚ) (hthr : thr < 1) (hs : thr ≤ s) :
    thr ≤ s / (1 - thr) := by
  have hr : 0 < 1 - thr := sub_pos.mpr hthr
  rw [le_div_iff₀ hr]
  nlinarith [sq_nonneg thr]

/-- After every `update`, a playing note comes with a stored movement at or above the
threshold. -/
theorem updateShaped_playing_stored (t : SimpleThresholdTrigger) (s now : ℚ)
    (hthr : t.mThreshold < 1)
    (hplay : (t.updateShaped s now).1.mNoteIsPlaying = true) :
    (t.updateShaped s now).1.mThreshold ≤ (t.updateShaped s now).1.mPreviousMovement := by
  rw [updateShaped_mThreshold, updateShaped_mPreviousMovement]
  apply threshold_le_stored _ _ hthr
  by_contra hlt
  have hbelow : s < t.mThreshold := not_le.mp hlt
  rw [updateShaped_below_not_playing t s now hthr hbelow] at hplay
  exact absurd hplay (by decide)

theorem runUpdates_threshold (t : SimpleThresholdTrigger) (calls : List (ℚ × ℚ)) :
    (runUpdates t calls).1.mThreshold = t.mThreshold := by
  induction calls generalizing t with
  | nil => rfl
  | cons c rest ih =>
    obtain ⟨raw, now⟩ := c
    simp only [runUpdates]
    rw [ih, updateShaped_mThreshold]

theorem runUpdates_playing_stored (t : SimpleThresholdTrigger) (calls : List (ℚ × ℚ))
    (hthr : t.mThreshold < 1)
    (hinv : t.mNoteIsPlaying = true → t.mThreshold ≤ t.mPreviousMovement)
    (hplay : (runUpdates t calls).1.mNoteIsPlaying = true) :
    (runUpdates t calls).1.mThreshold ≤ (runUpdates t calls).1.mPreviousMovement := by
  induction calls generalizing t with
  | nil => exact hinv hplay
  | cons c rest ih =>
    obtain ⟨raw, now⟩ := c
    simp only [runUpdates] at hplay ⊢
    apply ih
    · rw [updateShaped_mThreshold]
      exact hthr
    · exact updateShaped_playing_stored t (shape raw) now hthr
    · exact hplay

/-- C12, evaluated on the code: one `update` of a freshly constructed trigger with raw
movement 1 leaves `mPreviousMovement` at 1.25 and `mNoteVelocity` at 1.25, both above 1. -/
theorem stored_values_exceed_one :
    (runUpdates (construct 60 unitRect) [(1, 0)]).1.mPreviousMovement = 5 / 4 ∧
    (runUpdates (construct 60 unitRect) [(1, 0)]).1.mNoteVelocity = 5 / 4 ∧
    ¬ ((5 / 4 : ℚ) ≤ 1) := by
  simp only [runUpdates]
  rw [shape_one, updateShaped_fresh_one]
  refine ⟨rfl, rfl, ?_⟩
  norm_num

/-- C18: in every state reached from construction by `update` calls, a playing note comes
with a stored `mPreviousMovement` at or above the threshold; so the next `update` does not
send a note-on while `mNoteIsPlaying` is set, and does not send a note-off while it is
cleared. -/
theorem note_on_and_note_off_alternate (pitch : Int) (location : Rect)
    (calls : List (ℚ × ℚ)) (s now : ℚ) :
    ((runUpdates (construct pitch location) calls).1.mNoteIsPlaying = true →
      (runUpdates (construct pitch location) calls).1.mThreshold
        ≤ (runUpdates (construct pitch location) calls).1.mPreviousMovement) ∧
    ((runUpdates (construct pitch location) calls).1.mNoteIsPlaying = true →
      ¬ SendsNoteOn (runUpdates (construct pitch location) calls).1 s now) ∧
    ((runUpdates (construct pitch location) calls).1.mNoteIsPlaying = false →
      ¬ SendsNoteOff (runUpdates (construct pitch location) calls).1 s now) := by
  have hthr : (construct pitch location).mThreshold < 1 := by
    norm_num [construct]
  have hinv : (runUpdates (construct pitch location) calls).1.mNoteIsPlaying = true →
      (runUpdates (construct pitch location) calls).1.mThreshold
        ≤ (runUpdates (construct pitch location) calls).1.mPreviousMovement :=
    runUpdates_playing_stored (construct pitch location) calls hthr
      (fun h => absurd h (by simp [construct]))
  refine ⟨hinv, ?_, ?_⟩
  · intro hplay hon
    rw [sendsNoteOn_iff_guard] at hon
    exact absurd (sub_neg.mp hon.2) (not_lt.mpr (hinv hplay))
  · intro hplay hoff
    rw [sendsNoteOff_iff_guard] at hoff
    rw [hplay] at hoff
    exact absurd hoff.2.2 (by decide)

/-- C18 after one `update` with raw movement 1 (a note is playing) and after none. -/
theorem note_on_and_note_off_alternate_witness :
    ((runUpdates (construct 60 unitRect) [(1, 0)]).1.mThreshold
        ≤ (runUpdates (construct 60 unitRect) [(1, 0)]).1.mPreviousMovement ∧
      ¬ SendsNoteOn (runUpdates (construct 60 unitRect) [(1, 0)]).1 1 1) ∧
    ¬ SendsNoteOff (runUpdates (construct 60 unitRect) []).1 0 0 :=
  have hplay : (runUpdates (construct 60 unitRect) [(1, 0)]).1.mNoteIsPlaying = true := by
    simp only [runUpdates]
    rw [shape_one, updateShaped_fresh_one]
    rfl
  ⟨⟨(note_on_and_note_off_alternate 60 unitRect [(1, 0)] 1 1).1 hplay,
      (note_on_and_note_off_alternate 60 unitRect [(1, 0)] 1 1).2.1 hplay⟩,
    (note_on_and_note_off_alternate 60 unitRect [] 0 0).2.2 rfl⟩

/-! ## The firing condition and the velocity as coded -/

/-- C19: for a trigger with threshold `t` below 1 and two consecutive `update` calls with
shaped values `s1` and `s2`, the value stored between the calls is `s1 / (1 - t)`, and the
second call sends a note-on exactly when `s2 > t` and `s1 < t * (1 - t)`; with `t = 0.2` a
first shaped value of at least 0.16 (in particular one between 0.16 and 0.2) arms no
note-on. -/
theorem note_on_exact_condition (t : SimpleThresholdTrigger) (s1 s2 n1 n2 : ℚ)
    (hthr : t.mThreshold < 1) :
    (t.updateShaped s1 n1).1.mPreviousMovement = s1 / (1 - t.mThreshold) ∧
    (SendsNoteOn (t.updateShaped s1 n1).1 s2 n2 ↔
      (t.mThreshold < s2 ∧ s1 < t.mThreshold * (1 - t.mThreshold))) ∧
    (t.mThreshold = 2 / 10 → 16 / 100 ≤ s1 →
      ¬ SendsNoteOn (t.updateShaped s1 n1).1 s2 n2) := by
  have hr : 0 < 1 - t.mThreshold := sub_pos.mpr hthr
  have hiff : SendsNoteOn (t.updateShaped s1 n1).1 s2 n2 ↔
      (t.mThreshold < s2 ∧ s1 < t.mThreshold * (1 - t.mThreshold)) := by
    rw [sendsNoteOn_iff_guard, updateShaped_mThreshold, updateShaped_mPreviousMovement,
      gt_iff_lt, amountAbove_pos_iff _ _ hthr, sub_neg, div_lt_iff₀ hr]
  refine ⟨updateShaped_mPreviousMovement t s1 n1, hiff, ?_⟩
  intro h02 hs1 hon
  have hlt := (hiff.mp hon).2
  rw [h02] at hlt
  norm_num at hlt
  linarith

/-- C19 at a freshly constructed trigger with shaped values 0.18 and then 0.5: no note-on. -/
theorem note_on_exact_condition_witness :
    (construct 60 unitRect).mThreshold < 1 ∧
    ((construct 60 unitRect).updateShaped (18 / 100) 0).1.mPreviousMovement
      = 18 / 100 / (1 - (construct 60 unitRect).mThreshold) ∧
    (SendsNoteOn ((construct 60 unitRect).updateShaped (18 / 100) 0).1 (1 / 2) 1 ↔
      ((construct 60 unitRect).mThreshold < 1 / 2 ∧
        18 / 100 < (construct 60 unitRect).mThreshold
          * (1 - (construct 60 unitRect).mThreshold))) ∧
    ¬ SendsNoteOn ((construct 60 unitRect).updateShaped (18 / 100) 0).1 (1 / 2) 1 :=
  have h : (construct 60 unitRect).mThreshold < 1 := by
    norm_num [construct]
  ⟨h, (note_on_exact_condition (construct 60 unitRect) (18 / 100) (1 / 2) 0 1 h).1,
    (note_on_exact_condition (construct 60 unitRect) (18 / 100) (1 / 2) 0 1 h).2.1,
    (note_on_exact_condition (construct 60 unitRect) (18 / 100) (1 / 2) 0 1 h).2.2 rfl
      (by norm_num)⟩

end WebcamInstruments
